import Mathlib

set_option linter.unusedVariables false

/-!
Verification development for the LoRa network simulator
(`VERSION_8/launcher`).  The Python source is embedded shallowly:
pure functions become Lean functions on `Nat`, `Int` and `Rat`,
stateful methods become explicit state-passing functions, and calls
that can raise become `Except`-valued functions.  Every definition is
translated from the corresponding source file; definitions whose name
starts with `spec` follow the natural-language specification instead,
for comparison with the code.
-/

namespace LoraSim

/-! ## Channel (`channel.py`) -/

/-- Bandwidth in Hz, from `Channel.__init__` (`self.bandwidth = 125e3`). -/
def Channel.bandwidth : ℚ := 125000

/-- Coding-rate index, from `Channel.__init__` (`self.coding_rate = 1`). -/
def Channel.coding_rate : ℤ := 1

/-- Preamble length in symbols, from `Channel.__init__`. -/
def Channel.preamble_symbols : ℕ := 8

/-- Low-data-rate threshold, from `Channel.__init__`
(`self.low_data_rate_threshold = 11`). -/
def Channel.low_data_rate_threshold : ℕ := 11

/-- Capture threshold in dB, from `Channel.__init__`
(`self.capture_threshold_dB = 6.0`). -/
def Channel.capture_threshold_dB : ℚ := 6

/-- Sensitivity table (dBm per SF), from `Channel.__init__`
(`self.sensitivity_dBm`).  Keys outside 7..12 are absent; the caller in
`simulator.py` uses `.get(sf, -inf)`, modelled here as `Option`. -/
def Channel.sensitivity_dBm (sf : ℕ) : Option ℚ :=
  if sf = 7 then some (-123)
  else if sf = 8 then some (-126)
  else if sf = 9 then some (-129)
  else if sf = 10 then some (-132)
  else if sf = 11 then some (-134.5)
  else if sf = 12 then some (-137)
  else none

/-- Method `Channel.airtime(sf, payload_size)` from `channel.py`, translated over
exact rationals.  `rs = bandwidth / 2**sf`, `ts = 1/rs`,
`de = 1 if sf >= low_data_rate_threshold else 0`, `cr_denom = coding_rate + 4`,
`numerator = 8*payload - 4*sf + 28 + 16 - 20*0`,
`denominator = 4*(sf - 2*de)`,
`payload_symb_nb = 8 + max(ceil(numerator/denominator) * cr_denom, 0)`,
result `payload_symb_nb * ts`.  Note: no preamble term appears in the
source. -/
def Channel.airtime (sf : ℕ) (payload_size : ℤ) : ℚ :=
  let rs : ℚ := Channel.bandwidth / (2 ^ sf)
  let ts : ℚ := 1 / rs
  let de : ℤ := if Channel.low_data_rate_threshold ≤ sf then 1 else 0
  let cr_denom : ℤ := Channel.coding_rate + 4
  let numerator : ℤ := 8 * payload_size - 4 * (sf : ℤ) + 28 + 16 - 20 * 0
  let denominator : ℤ := 4 * ((sf : ℤ) - 2 * de)
  let payload_symb_nb : ℤ :=
    8 + max (Int.ceil ((numerator : ℚ) / (denominator : ℚ)) * cr_denom) 0
  (payload_symb_nb : ℚ) * ts

/-- Modelled from the spec (§4.1): the authoritative preamble-inclusive
airtime.  `N_payload = max(⌈(8B − 4SF + 28 + 16)/(4(SF − 2DE))⌉, 0)·5 + 8`,
`T_preamble = (8 + 4.25)·Ts`, total `= T_preamble + N_payload·Ts`. -/
def specAirtime (sf : ℕ) (payload_size : ℤ) : ℚ :=
  let ts : ℚ := (2 ^ sf) / Channel.bandwidth
  let de : ℤ := if 11 ≤ sf then 1 else 0
  let n_payload : ℤ :=
    max (Int.ceil (((8 * payload_size - 4 * (sf : ℤ) + 28 + 16) : ℚ) /
      ((4 * ((sf : ℤ) - 2 * de)) : ℚ))) 0 * 5 + 8
  let t_preamble : ℚ := (8 + 4.25) * ts
  t_preamble + (n_payload : ℚ) * ts

/-! ## Gateway reception state (`gateway.py`)

An element of `active_transmissions` is a dict with keys
`event_id`, `node_id`, `sf`, `rssi`, `end_time`, `lost_flag`. -/

structure Tx where
  event_id : ℕ
  node_id : ℕ
  sf : ℕ
  rssi : ℚ
  end_time : ℚ
  lost_flag : Bool
deriving DecidableEq

/-- The predicate selecting `concurrent_transmissions` in
`Gateway.start_reception`: same SF and `end_time > current_time`. -/
def Tx.concurrent (t : Tx) (sf : ℕ) (current_time : ℚ) : Bool :=
  t.sf == sf && decide (current_time < t.end_time)

/-- First element of the list attaining the maximal RSSI.  This is the
element Python obtains as `colliders[0]` after the stable descending
sort `colliders.sort(key=lambda t: t["rssi"], reverse=True)`. -/
def pickStrongest : List Tx → Option Tx
  | [] => none
  | t :: ts =>
    match pickStrongest ts with
    | none => some t
    | some u => if t.rssi < u.rssi then some u else some t

/-- Maximum of a list of rationals (`none` on the empty list). -/
def maxQ : List ℚ → Option ℚ
  | [] => none
  | x :: xs =>
    match maxQ xs with
    | none => some x
    | some m => some (max x m)

/-- Dict `new_transmission` built in `Gateway.start_reception`:
`lost_flag` starts `False`. -/
def newFrame (event_id node_id sf : ℕ) (rssi end_time : ℚ) : Tx :=
  ⟨event_id, node_id, sf, rssi, end_time, false⟩

/-- List `concurrent_transmissions` in `Gateway.start_reception`: the active
entries with the same SF whose `end_time > current_time`. -/
def concurrentList (active : List Tx) (sf : ℕ) (current_time : ℚ) : List Tx :=
  active.filter (fun t => t.concurrent sf current_time)

/-- List `colliders` in `Gateway.start_reception`: the concurrent entries
plus the new frame (appended last, as in the Python list). -/
def collidersList (active : List Tx) (event_id node_id sf : ℕ)
    (rssi end_time current_time : ℚ) : List Tx :=
  concurrentList active sf current_time ++ [newFrame event_id node_id sf rssi end_time]

/-- Value `strongest = colliders[0]` after the stable descending sort
`colliders.sort(key=lambda t: t["rssi"], reverse=True)`: the first
collider attaining the maximal RSSI.  The `getD` default is never used
because `colliders` is never empty. -/
def strongestOf (active : List Tx) (event_id node_id sf : ℕ)
    (rssi end_time current_time : ℚ) : Tx :=
  (pickStrongest (collidersList active event_id node_id sf rssi end_time current_time)).getD
    (newFrame event_id node_id sf rssi end_time)

/-- Value `second_strongest_rssi = colliders[1]["rssi"]` after the sort: the
maximum of the RSSI multiset with one copy of the maximum removed. -/
def secondRssi (active : List Tx) (event_id node_id sf : ℕ)
    (rssi end_time current_time : ℚ) : Option ℚ :=
  maxQ (((collidersList active event_id node_id sf rssi end_time current_time).map Tx.rssi).erase
    (strongestOf active event_id node_id sf rssi end_time current_time).rssi)

/-- Method `Gateway.start_reception(event_id, node_id, sf, rssi, end_time,
capture_threshold, current_time)` from `gateway.py`, acting on the
`active_transmissions` list.  Identity of the Python dict objects is
represented by `event_id` (the gateway invariant keeps at most one
entry per `event_id`).  In the capture branch the winner keeps its
place with `lost_flag = False`, the concurrent losers are removed, and
the new frame is appended only when it is the winner; in the
no-capture branch every concurrent entry is removed and the new frame
is not inserted. -/
def Gateway.start_reception (active : List Tx) (event_id node_id sf : ℕ)
    (rssi end_time capture_threshold current_time : ℚ) : List Tx :=
  let newTx := newFrame event_id node_id sf rssi end_time
  if (concurrentList active sf current_time).isEmpty then active ++ [newTx]
  else
    let strongest := strongestOf active event_id node_id sf rssi end_time current_time
    let capture : Bool :=
      match secondRssi active event_id node_id sf rssi end_time current_time with
      | none => false
      | some s2 => decide (capture_threshold ≤ strongest.rssi - s2)
    if capture then
      let kept := active.filterMap (fun t =>
        if t.concurrent sf current_time then
          if t.event_id == strongest.event_id then
            some { t with lost_flag := false }
          else none
        else some t)
      if strongest.event_id == newTx.event_id then kept ++ [newTx] else kept
    else
      active.filter (fun t => !(t.concurrent sf current_time))

/-! ## Network server (`server.py`) -/

structure NetworkServer where
  received_events : List ℕ
  event_gateway : List (ℕ × ℕ)
  packets_received : ℕ
deriving DecidableEq

/-- The freshly constructed server (`NetworkServer.__init__`). -/
def NetworkServer.empty : NetworkServer := ⟨[], [], 0⟩

/-- The deduplication part of `NetworkServer.receive(event_id, node_id,
gateway_id)` from `server.py` (lines 22-38): drop duplicates, otherwise
record the event, note the gateway, increment `packets_received`.
The ADR tail of the method (lines 40-52) only rewrites a node SF and is
modelled separately by `serverAdrSf` below. -/
def NetworkServer.receive (s : NetworkServer) (event_id node_id gateway_id : ℕ) : NetworkServer :=
  if event_id ∈ s.received_events then s
  else
    { received_events := s.received_events ++ [event_id]
      event_gateway := s.event_gateway ++ [(event_id, gateway_id)]
      packets_received := s.packets_received + 1 }

/-- Number of parameters of `NetworkServer.receive` in `server.py`
(line 22), not counting `self`: `event_id`, `node_id`, `gateway_id`. -/
def NetworkServer.receiveParamCount : ℕ := 3

/-- Number of arguments `Gateway.end_reception` passes to
`network_server.receive` in `gateway.py` (line 118), not counting the
receiver: `event_id`, `node_id`, `self.id`, `t["rssi"]`. -/
def Gateway.receiveCallArgCount : ℕ := 4

/-- Method `Gateway.end_reception(event_id, network_server, node_id)` from
`gateway.py`: find the entry with this `event_id`, remove it, and if it
was not marked lost call `network_server.receive`.  Python dispatches
that call dynamically; a positional-argument count different from the
parameter count of the callee raises `TypeError`, modelled by the
`Except.error` branch. -/
def Gateway.end_reception (active : List Tx) (gateway_id event_id : ℕ)
    (server : NetworkServer) (node_id : ℕ) : Except String (List Tx × NetworkServer) :=
  match active.find? (fun t => t.event_id == event_id) with
  | none => Except.ok (active, server)
  | some t =>
    let remaining := active.eraseP (fun u => u.event_id == event_id)
    if t.lost_flag then Except.ok (remaining, server)
    else if Gateway.receiveCallArgCount = NetworkServer.receiveParamCount then
      Except.ok (remaining, server.receive event_id node_id gateway_id)
    else
      Except.error "TypeError: receive() takes 4 positional arguments but 5 were given"

/-! ## Duty-cycle manager (`duty_cycle.py`)

`next_tx_time` is a dict with default `0.0` (`.get(node_id, 0.0)`),
modelled as a total function that is initially constant `0`. -/

structure DutyCycleManager where
  duty_cycle : ℚ
  next_tx_time : ℕ → ℚ

/-- Constructor `DutyCycleManager.__init__`: raises `ValueError` unless
`0 < duty_cycle ≤ 1`, otherwise starts with an empty dict. -/
def DutyCycleManager.init (duty_cycle : ℚ) : Except String DutyCycleManager :=
  if duty_cycle ≤ 0 ∨ 1 < duty_cycle then
    Except.error "duty_cycle must be in (0,1]"
  else Except.ok ⟨duty_cycle, fun _ => 0⟩

/-- Method `can_transmit(node_id, time)`. -/
def DutyCycleManager.can_transmit (m : DutyCycleManager) (node_id : ℕ) (time : ℚ) : Bool :=
  decide (m.next_tx_time node_id ≤ time)

/-- Method `update_after_tx(node_id, start_time, duration)`:
`wait_time = duration * (1/duty_cycle - 1)`,
`next_time = start_time + duration + wait_time`, stored only when it
exceeds the current value. -/
def DutyCycleManager.update_after_tx (m : DutyCycleManager) (node_id : ℕ)
    (start_time duration : ℚ) : DutyCycleManager :=
  let wait_time := duration * (1 / m.duty_cycle - 1)
  let next_time := start_time + duration + wait_time
  if m.next_tx_time node_id < next_time then
    { m with next_tx_time := fun i => if i = node_id then next_time else m.next_tx_time i }
  else m

/-- Method `enforce(node_id, requested_time)`. -/
def DutyCycleManager.enforce (m : DutyCycleManager) (node_id : ℕ) (requested_time : ℚ) : ℚ :=
  max requested_time (m.next_tx_time node_id)

/-! ## ADR updates (`server.py` lines 40-52, `simulator.py` lines 286-315) -/

/-- The SF rewrite performed at the end of `NetworkServer.receive` when
`adr_enabled` (`server.py` lines 49-52): `rssi` is the freshly computed
RSSI of the packet at the reporting gateway. -/
def serverAdrSf (rssi : ℚ) (sf : ℕ) : ℕ :=
  if -120 < rssi ∧ 7 < sf then sf - 1
  else if rssi < -120 ∧ sf < 12 then sf + 1
  else sf

/-- The PER branch of the node-side ADR in `Simulator.step`
(`simulator.py` lines 289-294): returns the new `(sf, tx_power)`. -/
def adrPerBranch (sf : ℕ) (tx_power : ℚ) : ℕ × ℚ :=
  if sf < 12 then (sf + 1, tx_power)
  else if tx_power < 14 then (sf, min 14 (tx_power + 3))
  else (sf, tx_power)

/-- The `while steps > 0` loop of the margin branch of the node-side
ADR (`simulator.py` lines 300-312), recursing on `steps`. -/
def adrMarginLoop : ℕ → ℕ → ℚ → ℕ × ℚ
  | 0, sf, tx_power => (sf, tx_power)
  | steps + 1, sf, tx_power =>
    if 7 < sf then
      adrMarginLoop steps (sf - 1) (if 2 < tx_power then max 2 (tx_power - 3) else tx_power)
    else if 2 < tx_power then adrMarginLoop steps sf (max 2 (tx_power - 3))
    else (sf, tx_power)

/-- The margin branch entry (`simulator.py` lines 295-312):
`steps = int(margin_val // 3)` with `margin_val > 0`. -/
def adrMarginBranch (margin_val : ℚ) (sf : ℕ) (tx_power : ℚ) : ℕ × ℚ :=
  adrMarginLoop (Int.floor (margin_val / 3)).toNat sf tx_power

/-- Lower bound of the initial SF draw `np.random.randint(7, 13)`
(`simulator.py` line 78). -/
def Simulator.randint_low : ℕ := 7

/-- Exclusive upper bound of the initial SF draw. -/
def Simulator.randint_high : ℕ := 13

/-- Initial transmit power (`simulator.py` line 79). -/
def Simulator.initial_tx_power : ℚ := 14

/-- The SF invariant claimed by the spec. -/
def sfInv (sf : ℕ) : Prop := 7 ≤ sf ∧ sf ≤ 12

/-- The TX-power invariant claimed by the spec. -/
def txInv (tx_power : ℚ) : Prop := 2 ≤ tx_power ∧ tx_power ≤ 14

/-! ## Simulator construction (`simulator.py` lines 22-130) -/

structure SimConfig where
  num_nodes : ℤ
  num_gateways : ℤ
  area_size : ℚ
  transmission_mode : String
  packet_interval : ℚ
  packets_to_send : ℤ
  duty_cycle : Option ℚ
  mobility : Bool

/-- Test `self.transmission_mode.lower() == "random"` (`simulator.py`
lines 118 and 200): any other string falls into the Periodic branch. -/
def modeIsRandom (mode : String) : Bool := mode.toLower == "random"

/-- Check of `DutyCycleManager.__init__` (`duty_cycle.py` line 4). -/
def dutyCycleInitRaises (duty_cycle : ℚ) : Bool :=
  decide (duty_cycle ≤ 0) || decide (1 < duty_cycle)

/-- Whether `Simulator.__init__` raises.  Line 54 constructs a
`DutyCycleManager` only when `duty_cycle` is truthy (not `None` and not
`0`), and that constructor checks the range.  The only other fallible
construction step is the initial scheduling loop (lines 117-124): with
at least one node in Random mode, `np.random.exponential(scale)` raises
`ValueError` for a negative scale.  Counts, `packet_interval` and
`transmission_mode` are never validated. -/
def Simulator.initRaises (cfg : SimConfig) : Bool :=
  (match cfg.duty_cycle with
   | none => false
   | some d => if d = 0 then false else dutyCycleInitRaises d)
  || (decide (0 < cfg.num_nodes) && modeIsRandom cfg.transmission_mode
      && decide (cfg.packet_interval < 0))

/-! ## Event queue (`simulator.py` lines 132-156)

Queue entries are tuples `(time, priority, event_id, node)`; `heapq`
pops the lexicographically least tuple.  `event_id` values are drawn
from a global counter and are distinct, so the comparison never reaches
the `node` component. -/

structure Ev where
  time : ℚ
  priority : ℕ
  event_id : ℕ
deriving DecidableEq

/-- Priority pushed for a transmission-end event (`simulator.py`
line 197). -/
def prioEnd : ℕ := 0

/-- Priority pushed by `schedule_event` (line 138). -/
def prioStart : ℕ := 1

/-- Priority pushed by `schedule_mobility` (line 145). -/
def prioMobility : ℕ := 2

/-- Python lexicographic comparison of `(time, priority, event_id)`. -/
def evLE (a b : Ev) : Prop :=
  a.time < b.time ∨
    (a.time = b.time ∧
      (a.priority < b.priority ∨ (a.priority = b.priority ∧ a.event_id ≤ b.event_id)))

instance (a b : Ev) : Decidable (evLE a b) := by
  unfold evLE
  exact inferInstance

/-- One `heapq.heappop`: remove a least element (with respect to the
tuple order) from the pending list. -/
def selectMin : List Ev → Option (Ev × List Ev)
  | [] => none
  | e :: es =>
    match selectMin es with
    | none => some (e, [])
    | some (m, rest) => if evLE e m then some (e, es) else some (m, e :: rest)

/-- Popping until the queue is empty (with fuel). -/
def drainGo : ℕ → List Ev → List Ev
  | 0, _ => []
  | n + 1, q =>
    match selectMin q with
    | none => []
    | some (m, rest) => m :: drainGo n rest

/-- The order in which `Simulator.step` dispatches the pending events:
repeated `heappop` of the least `(time, priority, event_id)` tuple. -/
def drain (q : List Ev) : List Ev := drainGo q.length q

/-! ## Gateway placement (`simulator.py` lines 61-71) -/

/-- The gateway-position loop: one gateway goes to the centre of the
area, several gateways are each placed at `np.random.rand() * area_size`
in both coordinates.  `rng gw_id` stands for the pair of uniform draws
of iteration `gw_id`, each in `[0, 1)`. -/
def Simulator.gatewayPositions (num_gateways : ℕ) (area_size : ℚ)
    (rng : ℕ → ℚ × ℚ) : List (ℚ × ℚ) :=
  (List.range num_gateways).map (fun gw_id =>
    if num_gateways = 1 then (area_size / 2, area_size / 2)
    else ((rng gw_id).1 * area_size, (rng gw_id).2 * area_size))

/-! ## Event log and per-node counters
(`simulator.py` `step` and `get_events_dataframe`, `node.py`) -/

/-- One entry of `self.events_log` (a Python dict). -/
structure EventRow where
  event_id : ℕ
  node_id : ℕ
  sf : ℕ
  start_time : ℚ
  end_time : ℚ
  energy_J : ℚ
  heard : Option Bool
  result : Option String
  gateway_id : Option ℕ
deriving DecidableEq

/-- The log entry appended by the transmission-start branch
(`simulator.py` lines 218-228): `result` and `gateway_id` are `None`. -/
def txStartLogEntry (event_id node_id sf : ℕ) (time end_time energy_J : ℚ)
    (heard : Bool) : EventRow :=
  ⟨event_id, node_id, sf, time, end_time, energy_J, some heard, none, none⟩

/-- The log entry appended by a mobility event (`simulator.py`
lines 335-345): `result = "Mobility"`, zero energy. -/
def mobilityLogEntry (event_id node_id sf : ℕ) (time : ℚ) : EventRow :=
  ⟨event_id, node_id, sf, time, time, 0, none, some "Mobility", none⟩

/-- The per-event log update of the transmission-end branch
(`simulator.py` lines 258-262) applied to one entry. -/
def setResult (r : EventRow) (delivered : Bool) (gw : Option ℕ) : EventRow :=
  { r with
    result := some (if delivered then "Success"
      else if r.heard = some true then "CollisionLoss" else "NoCoverage")
    gateway_id := if delivered then gw else none }

/-- The transmission-end branch walks the log and rewrites the first
entry with the matching `event_id` (then `break`s). -/
def stepTxEndLog : List EventRow → ℕ → Bool → Option ℕ → List EventRow
  | [], _, _, _ => []
  | r :: rs, event_id, delivered, gw =>
    if r.event_id = event_id then setResult r delivered gw :: rs
    else r :: stepTxEndLog rs event_id delivered gw

/-- The counters `node.py` exports per node via `to_dict`. -/
structure NodeCounters where
  packets_sent : ℕ
  packets_success : ℕ
  packets_collision : ℕ
  energy_consumed : ℚ
deriving DecidableEq

/-- Constructor `Node.__init__`: all counters start at zero. -/
def Node.init_counters : NodeCounters := ⟨0, 0, 0, 0⟩

/-- Effect of the transmission-start branch of `Simulator.step` on the
node counters: the only mutation is `node.add_energy(energy_J)`
(line 173); `increment_sent` is never called. -/
def stepTxStartNode (c : NodeCounters) (energy_J : ℚ) : NodeCounters :=
  { c with energy_consumed := c.energy_consumed + energy_J }

/-- Effect of the transmission-end branch of `Simulator.step` on the
node counters: none of `packets_sent`, `packets_success`,
`packets_collision`, `energy_consumed` is touched (`increment_success`
and `increment_collision` are never called). -/
def stepTxEndNode (c : NodeCounters) : NodeCounters := c

/-- Number of non-Mobility log rows of a node (the re-aggregation the
spec compares with `packets_sent`). -/
def rowsSent (log : List EventRow) (node_id : ℕ) : ℕ :=
  (log.filter (fun r => r.node_id == node_id && r.result != some "Mobility")).length

/-- Number of `Success` log rows of a node. -/
def rowsSuccess (log : List EventRow) (node_id : ℕ) : ℕ :=
  (log.filter (fun r => r.node_id == node_id && r.result == some "Success")).length

/-- Sum of the `energy_J` column over the log rows of a node. -/
def rowsEnergy (log : List EventRow) (node_id : ℕ) : ℚ :=
  ((log.filter (fun r => r.node_id == node_id)).map EventRow.energy_J).sum

/-! ## `get_events_dataframe` (`simulator.py` lines 381-409) -/

/-- Per-node state read back by `get_events_dataframe` when it joins
the log with the node table. -/
structure NodeSnapshot where
  initial_x : ℚ
  initial_y : ℚ
  x : ℚ
  y : ℚ
  initial_sf : ℕ
  sf : ℕ
  initial_tx_power : ℚ
  tx_power : ℚ

/-- One row of the returned table. -/
structure DataRow where
  event_id : ℕ
  node_id : ℕ
  initial_x : ℚ
  initial_y : ℚ
  final_x : ℚ
  final_y : ℚ
  initial_sf : ℕ
  final_sf : ℕ
  initial_tx_power : ℚ
  final_tx_power : ℚ
  start_time : ℚ
  end_time : ℚ
  energy_J : ℚ
  result : Option String
  gateway_id : Option ℕ

/-- List `columns_order` (`simulator.py` lines 401-405). -/
def columns_order : List String :=
  ["event_id", "node_id", "initial_x", "initial_y", "final_x", "final_y",
   "initial_sf", "final_sf", "initial_tx_power", "final_tx_power",
   "start_time", "end_time", "energy_J", "result", "gateway_id"]

/-- The join of one log entry with the node table (the `df[...] =
df["node_id"].apply(...)` lines); fields absent from the log entry
(`result`, `gateway_id` while unresolved) stay `None`. -/
def buildRow (nodes : ℕ → NodeSnapshot) (r : EventRow) : DataRow :=
  { event_id := r.event_id
    node_id := r.node_id
    initial_x := (nodes r.node_id).initial_x
    initial_y := (nodes r.node_id).initial_y
    final_x := (nodes r.node_id).x
    final_y := (nodes r.node_id).y
    initial_sf := (nodes r.node_id).initial_sf
    final_sf := (nodes r.node_id).sf
    initial_tx_power := (nodes r.node_id).initial_tx_power
    final_tx_power := (nodes r.node_id).tx_power
    start_time := r.start_time
    end_time := r.end_time
    energy_J := r.energy_J
    result := r.result
    gateway_id := r.gateway_id }

/-- Method `get_events_dataframe`: the empty log yields `pd.DataFrame()`,
a table with no columns and no rows; otherwise the table holds the
fifteen `columns_order` columns in that order, one row per log entry. -/
def get_events_dataframe (nodes : ℕ → NodeSnapshot) (log : List EventRow) :
    List String × List DataRow :=
  if log.isEmpty then ([], []) else (columns_order, log.map (buildRow nodes))

/-- The active list after the capture branch removed the concurrent
losers: concurrent entries are kept only when they are the winner (then
with `lost_flag := False`, as the code re-assigns it), entries outside
the collision are untouched.  This is the loop
`for t in concurrent_transmissions: if t["lost_flag"]:
self.active_transmissions.remove(t)` combined with the winner
marking. -/
def keptList (active : List Tx) (event_id node_id sf : ℕ)
    (rssi end_time current_time : ℚ) : List Tx :=
  active.filterMap (fun t =>
    if t.concurrent sf current_time then
      if t.event_id == (strongestOf active event_id node_id sf rssi end_time
          current_time).event_id then
        some { t with lost_flag := false }
      else none
    else some t)

/-- The case analysis of `Gateway.start_reception` claimed by the
spec, with `C` the concurrent same-SF entries, `strongest` the
top-RSSI collider and `s2` the second-highest RSSI among
`C ∪ {new}`: if `C` is empty the new frame is inserted with
`lost_flag = false`; under capture (`s1 − s2 ≥ threshold`) the
strongest frame alone survives with `lost_flag = false`, every other
frame of `C` is removed, entries outside `C` are untouched and the new
frame enters only if it is the winner; without capture every entry of
`C` is removed and the new frame is not inserted.  Entries are
identified by `event_id`. -/
def StartReceptionPost (active : List Tx) (event_id node_id sf : ℕ)
    (rssi end_time capture_threshold current_time : ℚ) : Prop :=
  let res := Gateway.start_reception active event_id node_id sf rssi end_time
    capture_threshold current_time
  let C := concurrentList active sf current_time
  let strongest := strongestOf active event_id node_id sf rssi end_time current_time
  (strongest ∈ collidersList active event_id node_id sf rssi end_time current_time ∧
    ∀ t ∈ collidersList active event_id node_id sf rssi end_time current_time,
      t.rssi ≤ strongest.rssi) ∧
  (C ≠ [] → ∃ s2, secondRssi active event_id node_id sf rssi end_time current_time = some s2) ∧
  (C = [] → res = active ++ [newFrame event_id node_id sf rssi end_time]) ∧
  (∀ s2, C ≠ [] →
    secondRssi active event_id node_id sf rssi end_time current_time = some s2 →
    (capture_threshold ≤ strongest.rssi - s2 →
      (∀ t ∈ C, t.event_id ≠ strongest.event_id → ∀ u ∈ res, u.event_id ≠ t.event_id) ∧
      { strongest with lost_flag := false } ∈ res ∧
      (∀ t ∈ active, t.concurrent sf current_time = false → t ∈ res) ∧
      (strongest.event_id ≠ event_id → ∀ u ∈ res, u.event_id ≠ event_id) ∧
      (∀ u ∈ res, u = { strongest with lost_flag := false } ∨ u ∈ active)) ∧
    (strongest.rssi - s2 < capture_threshold →
      (∀ t ∈ C, ∀ u ∈ res, u.event_id ≠ t.event_id) ∧
      (∀ u ∈ res, u.event_id ≠ event_id) ∧
      (∀ t ∈ active, t.concurrent sf current_time = false → t ∈ res) ∧
      (∀ u ∈ res, u ∈ active)))

/-! ## Theorems -/

/-- C1: `end_reception` on an active entry with `lost_flag = false`
does remove the entry, but the notification
`network_server.receive(event_id, node_id, self.id, t["rssi"])` passes
four positional arguments to a `receive` that accepts three, so the
call raises `TypeError` instead of completing: at the concrete state
with one clean entry the embedded call errors out, while the `receive`
body itself (when invoked with its declared three arguments) does add
the event, record the gateway and increment `packets_received` by one,
and the lost-entry and absent-entry paths return normally. -/
theorem end_reception_type_error :
    Gateway.end_reception [⟨0, 5, 7, -60, 10, false⟩] 1 0 NetworkServer.empty 5
        = Except.error "TypeError: receive() takes 4 positional arguments but 5 were given" ∧
    NetworkServer.receive NetworkServer.empty 0 5 1 = ⟨[0], [(0, 1)], 1⟩ ∧
    (NetworkServer.receive NetworkServer.empty 0 5 1).packets_received
        = NetworkServer.empty.packets_received + 1 ∧
    0 ∈ (NetworkServer.receive NetworkServer.empty 0 5 1).received_events ∧
    Gateway.end_reception [⟨0, 5, 7, -60, 10, true⟩] 1 0 NetworkServer.empty 5
        = Except.ok ([], NetworkServer.empty) ∧
    Gateway.end_reception [⟨3, 5, 7, -60, 10, false⟩] 1 0 NetworkServer.empty 5
        = Except.ok ([⟨3, 5, 7, -60, 10, false⟩], NetworkServer.empty) :=
  ⟨rfl, by decide, by decide, by decide, rfl, rfl⟩

/-- C2: the `Channel.airtime` of the repository returns only
`payload_symb_nb * ts` and never adds the preamble time: for every SF
and payload the preamble-inclusive formula of the spec exceeds the coded
value by exactly `(8 + 4.25) * Ts`, and at SF7 with the default
20-byte payload the code returns `0.044032 s` where the spec mandates
`0.056576 s`. -/
theorem airtime_missing_preamble :
    (∀ (sf : ℕ) (B : ℤ), specAirtime sf B
        = Channel.airtime sf B + (8 + 4.25) * ((2 ^ sf : ℚ) / Channel.bandwidth)) ∧
    Channel.airtime 7 20 = 5504 / 125000 ∧
    specAirtime 7 20 = 7072 / 125000 ∧
    Channel.airtime 7 20 ≠ specAirtime 7 20 := by
  have key : ∀ (sf : ℕ) (B : ℤ), specAirtime sf B
      = Channel.airtime sf B + (8 + 4.25) * ((2 ^ sf : ℚ) / Channel.bandwidth) := by
    intro sf B
    simp only [specAirtime, Channel.airtime, Channel.coding_rate,
      Channel.low_data_rate_threshold]
    rw [one_div_div]
    rw [max_mul_of_nonneg _ _ (show (0:ℤ) ≤ 5 by norm_num), zero_mul]
    push_cast
    ring_nf
  have h20 : Channel.airtime 7 20 = 5504 / 125000 := by
    have hc : Int.ceil ((44 : ℚ) / 7) = 7 := by
      rw [Int.ceil_eq_iff]
      constructor <;> norm_num
    norm_num [Channel.airtime, Channel.bandwidth, Channel.coding_rate,
      Channel.low_data_rate_threshold, hc]
  have hs20 : specAirtime 7 20 = 7072 / 125000 := by
    have hc : Int.ceil ((44 : ℚ) / 7) = 7 := by
      rw [Int.ceil_eq_iff]
      constructor <;> norm_num
    norm_num [specAirtime, Channel.bandwidth, hc]
  refine ⟨key, h20, hs20, ?diff⟩
  rw [h20, hs20]
  norm_num

/-- C4 counterexample: the configuration with `duty_cycle = 0`,
`num_nodes = -3`, `num_gateways = -1`, `packet_interval = 0` and the
unknown mode `"Weird"` violates every clause of the claimed valid
domain, yet `Simulator.__init__` raises nothing: `duty_cycle = 0` is
falsy so no `DutyCycleManager` is built, and counts, interval and mode
are never validated. -/
theorem simulator_init_accepts_invalid_config :
    Simulator.initRaises ⟨-3, -1, 1000, "Weird", 0, 0, some 0, false⟩ = false ∧
    ¬ (0 < (0 : ℚ)) ∧ (-3 : ℤ) ≤ 0 ∧ (-1 : ℤ) ≤ 0 ∧ (0 : ℚ) ≤ 0 ∧
    "Weird" ≠ "Random" ∧ "Weird" ≠ "Periodic" := by
  refine ⟨?raises, by decide, by decide, by decide, by decide, by decide, by decide⟩
  decide

/-- C4 amended: construction raises exactly when either a supplied
nonzero `duty_cycle` lies outside `(0, 1]` (the `DutyCycleManager`
range check), or the mode is Random with a positive node count and a
negative `packet_interval` (the exponential draw rejects a negative
scale); `duty_cycle = 0` silently disables duty cycling, and
non-positive counts, non-positive intervals in the Periodic branch and
unknown transmission modes are accepted, unknown modes behaving as
Periodic. -/
theorem simulator_init_validation (cfg : SimConfig) :
    Simulator.initRaises cfg = true ↔
      ((∃ d, cfg.duty_cycle = some d ∧ d ≠ 0 ∧ (d ≤ 0 ∨ 1 < d)) ∨
       (0 < cfg.num_nodes ∧ modeIsRandom cfg.transmission_mode = true ∧
         cfg.packet_interval < 0)) := by
  cases h : cfg.duty_cycle with
  | none =>
    simp [Simulator.initRaises, h, dutyCycleInitRaises, and_assoc]
  | some d =>
    by_cases hd : d = 0
    · subst hd
      simp [Simulator.initRaises, h, dutyCycleInitRaises, and_assoc]
    · simp [Simulator.initRaises, h, hd, dutyCycleInitRaises, and_assoc]

/-- C6: with any duty cycle `d ∈ (0,1]`, `update_after_tx` stores
`max(next_tx_time, start + duration/d)` (because
`start + duration + duration·(1/d − 1) = start + duration/d`), the next
start obtained by `enforce` after that update is at least
`start + duration/d` away from nothing less than the recorded start,
and both operations keep `next_tx_time` monotonically non-decreasing
per node. -/
theorem duty_cycle_spacing (m : DutyCycleManager)
    (h0 : 0 < m.duty_cycle) (h1 : m.duty_cycle ≤ 1)
    (node_id : ℕ) (start duration t : ℚ) :
    ((m.update_after_tx node_id start duration).next_tx_time node_id
        = max (m.next_tx_time node_id) (start + duration / m.duty_cycle)) ∧
    (start + duration / m.duty_cycle
        ≤ (m.update_after_tx node_id start duration).enforce node_id t) ∧
    (∀ i, m.next_tx_time i ≤ (m.update_after_tx node_id start duration).next_tx_time i) ∧
    (∀ i r, r ≤ m.enforce i r ∧ m.next_tx_time i ≤ m.enforce i r) := by
  have hsum : start + duration + duration * (1 / m.duty_cycle - 1)
      = start + duration / m.duty_cycle := by
    rw [mul_sub, mul_one_div, mul_one]
    ring
  have hval : (m.update_after_tx node_id start duration).next_tx_time node_id
      = max (m.next_tx_time node_id) (start + duration / m.duty_cycle) := by
    unfold DutyCycleManager.update_after_tx
    by_cases hlt : m.next_tx_time node_id
        < start + duration + duration * (1 / m.duty_cycle - 1)
    · rw [if_pos hlt]
      simp only [if_pos rfl]
      rw [hsum] at hlt ⊢
      exact (max_eq_right hlt.le).symm
    · rw [if_neg hlt]
      rw [hsum] at hlt
      exact (max_eq_left (not_lt.mp hlt)).symm
  refine ⟨hval, ?spacing, ?mono, ?enf⟩
  case spacing =>
    unfold DutyCycleManager.enforce
    calc start + duration / m.duty_cycle
        ≤ max (m.next_tx_time node_id) (start + duration / m.duty_cycle) := le_max_right _ _
      _ = (m.update_after_tx node_id start duration).next_tx_time node_id := hval.symm
      _ ≤ max t ((m.update_after_tx node_id start duration).next_tx_time node_id) :=
          le_max_right _ _
  case mono =>
    intro i
    unfold DutyCycleManager.update_after_tx
    by_cases hlt : m.next_tx_time node_id
        < start + duration + duration * (1 / m.duty_cycle - 1)
    · rw [if_pos hlt]
      by_cases hi : i = node_id
      · subst hi
        simp only [if_pos rfl]
        exact hlt.le
      · simp only [if_neg hi]
        exact le_rfl
    · rw [if_neg hlt]
  case enf =>
    intro i r
    exact ⟨le_max_left _ _, le_max_right _ _⟩

/-- Witness for C6 at the concrete manager with `duty_cycle = 1` and an
empty dict, node 0, start 5, duration 2, requested next time 9. -/
theorem duty_cycle_spacing_witness :
    (0 : ℚ) < (⟨1, fun _ => 0⟩ : DutyCycleManager).duty_cycle ∧
    (⟨1, fun _ => 0⟩ : DutyCycleManager).duty_cycle ≤ 1 ∧
    ((((⟨1, fun _ => 0⟩ : DutyCycleManager).update_after_tx 0 5 2).next_tx_time 0
        = max ((⟨1, fun _ => 0⟩ : DutyCycleManager).next_tx_time 0)
            (5 + 2 / (⟨1, fun _ => 0⟩ : DutyCycleManager).duty_cycle)) ∧
      (5 + 2 / (⟨1, fun _ => 0⟩ : DutyCycleManager).duty_cycle
        ≤ (((⟨1, fun _ => 0⟩ : DutyCycleManager).update_after_tx 0 5 2)).enforce 0 9) ∧
      (∀ i, (⟨1, fun _ => 0⟩ : DutyCycleManager).next_tx_time i
        ≤ (((⟨1, fun _ => 0⟩ : DutyCycleManager).update_after_tx 0 5 2)).next_tx_time i) ∧
      (∀ i r, r ≤ (⟨1, fun _ => 0⟩ : DutyCycleManager).enforce i r ∧
        (⟨1, fun _ => 0⟩ : DutyCycleManager).next_tx_time i
          ≤ (⟨1, fun _ => 0⟩ : DutyCycleManager).enforce i r)) :=
  ⟨by decide, by decide, duty_cycle_spacing ⟨1, fun _ => 0⟩ (by decide) (by decide) 0 5 2 9⟩

/-- The `while steps > 0` loop of the margin branch keeps the SF and
TX-power invariants. -/
lemma adrMarginLoop_bounds : ∀ (steps sf : ℕ) (tx_power : ℚ), sfInv sf → txInv tx_power →
    sfInv (adrMarginLoop steps sf tx_power).1 ∧ txInv (adrMarginLoop steps sf tx_power).2 := by
  intro steps
  induction steps with
  | zero =>
    intro sf tx hs ht
    exact ⟨hs, ht⟩
  | succ n ih =>
    intro sf tx hs ht
    obtain ⟨hs1, hs2⟩ := hs
    obtain ⟨ht1, ht2⟩ := ht
    unfold adrMarginLoop
    by_cases h7 : 7 < sf
    · rw [if_pos h7]
      apply ih
      · exact ⟨by omega, by omega⟩
      · by_cases h2 : 2 < tx
        · rw [if_pos h2]
          exact ⟨le_max_left _ _, max_le (by norm_num) (by linarith)⟩
        · rw [if_neg h2]
          exact ⟨ht1, ht2⟩
    · rw [if_neg h7]
      by_cases h2 : 2 < tx
      · rw [if_pos h2]
        apply ih
        · exact ⟨hs1, hs2⟩
        · exact ⟨le_max_left _ _, max_le (by norm_num) (by linarith)⟩
      · rw [if_neg h2]
        exact ⟨⟨hs1, hs2⟩, ⟨ht1, ht2⟩⟩

/-- C7: every path that rewrites the SF or TX power of a node keeps
`sf ∈ [7,12]` and `tx_power ∈ [2,14]`: the initial draw
`randint(7,13)` with `tx_power = 14`, the server-side coarse ADR step,
the node-side PER branch, and the node-side margin loop (hence the
margin branch for any `margin_val`). -/
theorem adr_preserves_bounds (sf : ℕ) (tx_power rssi margin_val : ℚ)
    (hsf : sfInv sf) (htx : txInv tx_power) :
    sfInv (serverAdrSf rssi sf) ∧
    sfInv (adrPerBranch sf tx_power).1 ∧ txInv (adrPerBranch sf tx_power).2 ∧
    (∀ steps, sfInv (adrMarginLoop steps sf tx_power).1 ∧
      txInv (adrMarginLoop steps sf tx_power).2) ∧
    sfInv (adrMarginBranch margin_val sf tx_power).1 ∧
    txInv (adrMarginBranch margin_val sf tx_power).2 ∧
    (∀ r, Simulator.randint_low ≤ r → r < Simulator.randint_high → sfInv r) ∧
    txInv Simulator.initial_tx_power := by
  obtain ⟨hs1, hs2⟩ := hsf
  obtain ⟨ht1, ht2⟩ := htx
  have hserver : sfInv (serverAdrSf rssi sf) := by
    unfold serverAdrSf
    split_ifs with h1 h2
    · exact ⟨by omega, by omega⟩
    · exact ⟨by omega, by omega⟩
    · exact ⟨hs1, hs2⟩
  have hper : sfInv (adrPerBranch sf tx_power).1 ∧ txInv (adrPerBranch sf tx_power).2 := by
    unfold adrPerBranch
    split_ifs with h1 h2
    · exact ⟨⟨by omega, by omega⟩, ⟨ht1, ht2⟩⟩
    · refine ⟨⟨hs1, hs2⟩, ⟨le_min (by norm_num) (by linarith), min_le_left _ _⟩⟩
    · exact ⟨⟨hs1, hs2⟩, ⟨ht1, ht2⟩⟩
  have hloop := fun steps => adrMarginLoop_bounds steps sf tx_power ⟨hs1, hs2⟩ ⟨ht1, ht2⟩
  have hbranch := adrMarginLoop_bounds (Int.floor (margin_val / 3)).toNat sf tx_power
    ⟨hs1, hs2⟩ ⟨ht1, ht2⟩
  refine ⟨hserver, hper.1, hper.2, hloop, hbranch.1, hbranch.2, ?init, ?tx0⟩
  case init =>
    intro r h1 h2
    unfold Simulator.randint_low at h1
    unfold Simulator.randint_high at h2
    exact ⟨h1, by omega⟩
  case tx0 =>
    unfold txInv Simulator.initial_tx_power
    norm_num

/-- Witness for C7 at SF 12, TX power 14 dBm, RSSI -100 dBm,
margin 9 dB. -/
theorem adr_preserves_bounds_witness :
    sfInv 12 ∧ txInv 14 ∧
    (sfInv (serverAdrSf (-100) 12) ∧
     sfInv (adrPerBranch 12 14).1 ∧ txInv (adrPerBranch 12 14).2 ∧
     (∀ steps, sfInv (adrMarginLoop steps 12 14).1 ∧
       txInv (adrMarginLoop steps 12 14).2) ∧
     sfInv (adrMarginBranch 9 12 14).1 ∧
     txInv (adrMarginBranch 9 12 14).2 ∧
     (∀ r, Simulator.randint_low ≤ r → r < Simulator.randint_high → sfInv r) ∧
     txInv Simulator.initial_tx_power) :=
  ⟨⟨by decide, by decide⟩, ⟨by decide, by decide⟩,
    adr_preserves_bounds 12 14 (-100) 9 ⟨by decide, by decide⟩ ⟨by decide, by decide⟩⟩

/-- C9: the construction loop places a single gateway deterministically
at the centre `(area_size/2, area_size/2)`, while with two or more
gateways every position is the pair of RNG draws of that iteration
scaled by `area_size`, hence inside `[0, area_size]²` when the draws
lie in `[0, 1)`. -/
theorem gateway_placement (area_size : ℚ) (rng : ℕ → ℚ × ℚ) (n : ℕ) :
    Simulator.gatewayPositions 1 area_size rng = [(area_size / 2, area_size / 2)] ∧
    (2 ≤ n → Simulator.gatewayPositions n area_size rng
        = (List.range n).map (fun i => ((rng i).1 * area_size, (rng i).2 * area_size))) ∧
    (2 ≤ n → 0 ≤ area_size →
      (∀ j, 0 ≤ (rng j).1 ∧ (rng j).1 < 1 ∧ 0 ≤ (rng j).2 ∧ (rng j).2 < 1) →
      ∀ p ∈ Simulator.gatewayPositions n area_size rng,
        0 ≤ p.1 ∧ p.1 ≤ area_size ∧ 0 ≤ p.2 ∧ p.2 ≤ area_size) := by
  have hone : Simulator.gatewayPositions 1 area_size rng
      = [(area_size / 2, area_size / 2)] := by
    simp [Simulator.gatewayPositions, List.range_succ]
  have hmany : ∀ hn : 2 ≤ n, Simulator.gatewayPositions n area_size rng
      = (List.range n).map (fun i => ((rng i).1 * area_size, (rng i).2 * area_size)) := by
    intro hn
    have hne : n ≠ 1 := by omega
    simp [Simulator.gatewayPositions, hne]
  refine ⟨hone, hmany, ?bounds⟩
  intro hn harea hr p hp
  rw [hmany hn] at hp
  simp only [List.mem_map, List.mem_range] at hp
  obtain ⟨i, hi, rfl⟩ := hp
  obtain ⟨r1, r2, r3, r4⟩ := hr i
  refine ⟨mul_nonneg r1 harea, ?x, mul_nonneg r3 harea, ?y⟩
  case x =>
    calc (rng i).1 * area_size ≤ 1 * area_size := mul_le_mul_of_nonneg_right r2.le harea
      _ = area_size := one_mul area_size
  case y =>
    calc (rng i).2 * area_size ≤ 1 * area_size := mul_le_mul_of_nonneg_right r4.le harea
      _ = area_size := one_mul area_size

/-- Witness for C9 with two gateways, area 1000 m and the constant RNG
returning `(0, 0)`. -/
theorem gateway_placement_witness :
    (2 ≤ 2) ∧ ((0 : ℚ) ≤ 1000) ∧
    (∀ p ∈ Simulator.gatewayPositions 2 1000 (fun _ => ((0 : ℚ), (0 : ℚ))),
      0 ≤ p.1 ∧ p.1 ≤ 1000 ∧ 0 ≤ p.2 ∧ p.2 ≤ 1000) :=
  ⟨by decide, by decide,
    (gateway_placement 1000 (fun _ => ((0 : ℚ), (0 : ℚ))) 2).2.2 (by decide) (by decide)
      (fun j => ⟨le_rfl, by decide, le_rfl, by decide⟩)⟩

/-- C10: `get_events_dataframe` on the empty log returns the empty
table with no columns at all; on a non-empty log it returns exactly the
fifteen columns in the fixed order (one row per log entry), and the
join leaves absent fields (`result`, `gateway_id`) as the `None` stored
in the log entry, which a fresh transmission row initialises to
`None`. -/
theorem events_dataframe_schema (nodes : ℕ → NodeSnapshot) (log : List EventRow) :
    (log = [] → get_events_dataframe nodes log = ([], [])) ∧
    (log ≠ [] →
      (get_events_dataframe nodes log).1
          = ["event_id", "node_id", "initial_x", "initial_y", "final_x", "final_y",
             "initial_sf", "final_sf", "initial_tx_power", "final_tx_power",
             "start_time", "end_time", "energy_J", "result", "gateway_id"] ∧
      (get_events_dataframe nodes log).1.length = 15 ∧
      (get_events_dataframe nodes log).2 = log.map (buildRow nodes)) ∧
    (∀ r, (buildRow nodes r).result = r.result ∧ (buildRow nodes r).gateway_id = r.gateway_id) ∧
    (∀ event_id node_id sf time end_time energy_J heard,
      (txStartLogEntry event_id node_id sf time end_time energy_J heard).result = none ∧
      (txStartLogEntry event_id node_id sf time end_time energy_J heard).gateway_id = none) := by
  refine ⟨?empty, ?nonempty, fun r => ⟨rfl, rfl⟩, fun a b c d e f g => ⟨rfl, rfl⟩⟩
  case empty =>
    intro h
    subst h
    rfl
  case nonempty =>
    intro h
    cases log with
    | nil => exact absurd rfl h
    | cons a l => exact ⟨rfl, rfl, rfl⟩

/-- Witness for C10: the empty log and a one-row log. -/
theorem events_dataframe_schema_witness :
    get_events_dataframe (fun _ => ⟨0, 0, 0, 0, 7, 7, 14, 14⟩) [] = ([], []) ∧
    ([mobilityLogEntry 0 0 7 0] ≠ []) ∧
    (get_events_dataframe (fun _ => ⟨0, 0, 0, 0, 7, 7, 14, 14⟩)
      [mobilityLogEntry 0 0 7 0]).1.length = 15 :=
  ⟨(events_dataframe_schema (fun _ => ⟨0, 0, 0, 0, 7, 7, 14, 14⟩) []).1 rfl,
   List.cons_ne_nil _ _,
   ((events_dataframe_schema (fun _ => ⟨0, 0, 0, 0, 7, 7, 14, 14⟩)
      [mobilityLogEntry 0 0 7 0]).2.1 (List.cons_ne_nil _ _)).2.1⟩

/-- C5: after one completed, delivered transmission of node 0 (logged
with energy 2 J), re-aggregating the event log yields one non-Mobility
row and one Success row for the node, but the node counters
`packets_sent` and `packets_success` are still 0 because `step` never
calls `increment_sent`/`increment_success`; only the energy column
agrees with `energy_consumed` (`add_energy` is called). -/
theorem node_counters_diverge_from_log :
    rowsSent (stepTxEndLog [txStartLogEntry 0 0 7 0 1 2 true] 0 true (some 0)) 0 = 1 ∧
    rowsSuccess (stepTxEndLog [txStartLogEntry 0 0 7 0 1 2 true] 0 true (some 0)) 0 = 1 ∧
    (stepTxEndNode (stepTxStartNode Node.init_counters 2)).packets_sent = 0 ∧
    (stepTxEndNode (stepTxStartNode Node.init_counters 2)).packets_success = 0 ∧
    rowsSent (stepTxEndLog [txStartLogEntry 0 0 7 0 1 2 true] 0 true (some 0)) 0
        ≠ (stepTxEndNode (stepTxStartNode Node.init_counters 2)).packets_sent ∧
    rowsSuccess (stepTxEndLog [txStartLogEntry 0 0 7 0 1 2 true] 0 true (some 0)) 0
        ≠ (stepTxEndNode (stepTxStartNode Node.init_counters 2)).packets_success ∧
    rowsEnergy (stepTxEndLog [txStartLogEntry 0 0 7 0 1 2 true] 0 true (some 0)) 0
        = (stepTxEndNode (stepTxStartNode Node.init_counters 2)).energy_consumed := by
  refine ⟨by decide, by decide, by decide, by decide, by decide, by decide, ?energy⟩
  norm_num [rowsEnergy, stepTxEndLog, txStartLogEntry, setResult, stepTxEndNode,
    stepTxStartNode, Node.init_counters]

lemma evLE_refl (a : Ev) : evLE a a :=
  Or.inr ⟨rfl, Or.inr ⟨rfl, le_rfl⟩⟩

lemma evLE_total (a b : Ev) : evLE a b ∨ evLE b a := by
  unfold evLE
  rcases lt_trichotomy a.time b.time with h | h | h
  · exact Or.inl (Or.inl h)
  · rcases lt_trichotomy a.priority b.priority with hp | hp | hp
    · exact Or.inl (Or.inr ⟨h, Or.inl hp⟩)
    · rcases Nat.le_total a.event_id b.event_id with hi | hi
      · exact Or.inl (Or.inr ⟨h, Or.inr ⟨hp, hi⟩⟩)
      · exact Or.inr (Or.inr ⟨h.symm, Or.inr ⟨hp.symm, hi⟩⟩)
    · exact Or.inr (Or.inr ⟨h.symm, Or.inl hp⟩)
  · exact Or.inr (Or.inl h)

lemma evLE_trans {a b c : Ev} (h1 : evLE a b) (h2 : evLE b c) : evLE a c := by
  unfold evLE at h1 h2 ⊢
  rcases h1 with h1 | ⟨e1, h1⟩
  · rcases h2 with h2 | ⟨e2, h2⟩
    · exact Or.inl (h1.trans h2)
    · exact Or.inl (by rw [← e2]; exact h1)
  · rcases h2 with h2 | ⟨e2, h2⟩
    · exact Or.inl (by rw [e1]; exact h2)
    · refine Or.inr ⟨e1.trans e2, ?_⟩
      rcases h1 with h1 | ⟨p1, h1⟩
      · rcases h2 with h2 | ⟨p2, h2⟩
        · exact Or.inl (h1.trans h2)
        · exact Or.inl (by rw [← p2]; exact h1)
      · rcases h2 with h2 | ⟨p2, h2⟩
        · exact Or.inl (by rw [p1]; exact h2)
        · exact Or.inr ⟨p1.trans p2, h1.trans h2⟩

lemma selectMin_eq_none {q : List Ev} : selectMin q = none ↔ q = [] := by
  cases q with
  | nil => simp [selectMin]
  | cons e es =>
    simp only [selectMin]
    constructor
    · intro h
      exfalso
      cases hes : selectMin es with
      | none =>
        simp only [hes] at h
        exact Option.noConfusion h
      | some p =>
        obtain ⟨m0, r0⟩ := p
        simp only [hes] at h
        by_cases hle : evLE e m0
        · rw [if_pos hle] at h
          exact Option.noConfusion h
        · rw [if_neg hle] at h
          exact Option.noConfusion h
    · intro h
      exact List.noConfusion h

lemma selectMin_spec : ∀ {q : List Ev} {m rest}, selectMin q = some (m, rest) →
    (m :: rest).Perm q ∧ ∀ x ∈ q, evLE m x := by
  intro q
  induction q with
  | nil =>
    intro m rest h
    simp [selectMin] at h
  | cons e es ih =>
    intro m rest h
    simp only [selectMin] at h
    cases hes : selectMin es with
    | none =>
      simp only [hes] at h
      cases h
      have hnil : es = [] := selectMin_eq_none.mp hes
      subst hnil
      refine ⟨List.Perm.refl _, ?_⟩
      intro x hx
      rw [List.mem_singleton] at hx
      subst hx
      exact evLE_refl _
    | some p =>
      obtain ⟨m0, rest0⟩ := p
      simp only [hes] at h
      obtain ⟨hperm0, hmin0⟩ := ih hes
      by_cases hle : evLE e m0
      · rw [if_pos hle] at h
        cases h
        refine ⟨List.Perm.refl _, ?_⟩
        intro x hx
        rcases List.mem_cons.mp hx with rfl | hx
        · exact evLE_refl _
        · exact evLE_trans hle (hmin0 x hx)
      · rw [if_neg hle] at h
        cases h
        constructor
        · exact (List.Perm.swap e m rest0).trans (hperm0.cons e)
        · intro x hx
          have hm0e : evLE m e := (evLE_total e m).resolve_left hle
          rcases List.mem_cons.mp hx with rfl | hx
          · exact hm0e
          · exact hmin0 x hx

lemma drainGo_spec : ∀ (n : ℕ) (q : List Ev), q.length ≤ n →
    (drainGo n q).Perm q ∧ (drainGo n q).Pairwise evLE := by
  intro n
  induction n with
  | zero =>
    intro q hq
    have hnil : q = [] := List.length_eq_zero.mp (Nat.le_zero.mp hq)
    subst hnil
    exact ⟨List.Perm.refl _, List.Pairwise.nil⟩
  | succ n ih =>
    intro q hq
    cases hsel : selectMin q with
    | none =>
      have hnil : q = [] := selectMin_eq_none.mp hsel
      subst hnil
      constructor <;> simp [drainGo, selectMin]
    | some p =>
      obtain ⟨m, rest⟩ := p
      obtain ⟨hperm, hmin⟩ := selectMin_spec hsel
      have hlen : rest.length + 1 = q.length := by
        have := hperm.length_eq
        simpa using this
      have hrest : rest.length ≤ n := by omega
      obtain ⟨ihp, ihs⟩ := ih rest hrest
      have hun : drainGo (n + 1) q = m :: drainGo n rest := by
        simp [drainGo, hsel]
      rw [hun]
      constructor
      · exact (ihp.cons m).trans hperm
      · refine List.Pairwise.cons ?_ ihs
        intro x hx
        have hxr : x ∈ rest := ihp.mem_iff.mp hx
        have hxq : x ∈ q := hperm.mem_iff.mp (List.mem_cons_of_mem m hxr)
        exact hmin x hxq

/-- C8: the queue drains as a sorted permutation of the pending events
under the lexicographic tuple order `(time, priority, event_id)`: an
earlier time is popped first, at equal time the lower priority number
is popped first (so a transmission-end, priority 0, precedes a
transmission-start, priority 1, and a mobility event, priority 2,
scheduled at the same instant), and remaining ties fall to the lower
`event_id`. -/
theorem event_queue_order (q : List Ev) :
    (drain q).Perm q ∧ (drain q).Pairwise evLE ∧
    (∀ (t : ℚ) (i j : ℕ), evLE ⟨t, prioEnd, i⟩ ⟨t, prioStart, j⟩) ∧
    (∀ (t : ℚ) (i j : ℕ), evLE ⟨t, prioStart, i⟩ ⟨t, prioMobility, j⟩) ∧
    (∀ a b : Ev, a.time < b.time → evLE a b) ∧
    (∀ a b : Ev, a.time = b.time → a.priority < b.priority → evLE a b) ∧
    (∀ a b : Ev, a.time = b.time → a.priority = b.priority → a.event_id ≤ b.event_id →
      evLE a b) := by
  obtain ⟨hperm, hsort⟩ := drainGo_spec q.length q le_rfl
  refine ⟨hperm, hsort, ?ends, ?starts, ?times, ?prios, ?ids⟩
  case ends =>
    intro t i j
    exact Or.inr ⟨rfl, Or.inl (show prioEnd < prioStart by decide)⟩
  case starts =>
    intro t i j
    exact Or.inr ⟨rfl, Or.inl (show prioStart < prioMobility by decide)⟩
  case times =>
    intro a b h
    exact Or.inl h
  case prios =>
    intro a b ht hp
    exact Or.inr ⟨ht, Or.inl hp⟩
  case ids =>
    intro a b ht hp hi
    exact Or.inr ⟨ht, Or.inr ⟨hp, hi⟩⟩

/-- Witness for C8 on a concrete three-event queue containing a
mobility event at t = 3 and an end and a start both at t = 5. -/
theorem event_queue_order_witness :
    ((3 : ℚ) < 5) ∧ (prioEnd < prioStart) ∧
    (drain [⟨5, prioStart, 0⟩, ⟨3, prioMobility, 9⟩, ⟨5, prioEnd, 2⟩]).Perm
      [⟨5, prioStart, 0⟩, ⟨3, prioMobility, 9⟩, ⟨5, prioEnd, 2⟩] ∧
    evLE ⟨3, prioMobility, 9⟩ ⟨5, prioStart, 0⟩ ∧
    evLE ⟨5, prioEnd, 2⟩ ⟨5, prioStart, 0⟩ :=
  ⟨by decide, by decide,
   (event_queue_order [⟨5, prioStart, 0⟩, ⟨3, prioMobility, 9⟩, ⟨5, prioEnd, 2⟩]).1,
   (event_queue_order []).2.2.2.2.1 ⟨3, prioMobility, 9⟩ ⟨5, prioStart, 0⟩ (by decide),
   (event_queue_order []).2.2.2.2.2.1 ⟨5, prioEnd, 2⟩ ⟨5, prioStart, 0⟩ rfl (by decide)⟩

lemma pickStrongest_eq_none {l : List Tx} : pickStrongest l = none ↔ l = [] := by
  cases l with
  | nil => simp [pickStrongest]
  | cons t ts =>
    simp only [pickStrongest]
    constructor
    · intro h
      exfalso
      cases hts : pickStrongest ts with
      | none =>
        simp only [hts] at h
        exact Option.noConfusion h
      | some u =>
        simp only [hts] at h
        by_cases hlt : t.rssi < u.rssi
        · rw [if_pos hlt] at h
          exact Option.noConfusion h
        · rw [if_neg hlt] at h
          exact Option.noConfusion h
    · intro h
      exact List.noConfusion h

lemma pickStrongest_spec : ∀ {l : List Tx} {s}, pickStrongest l = some s →
    s ∈ l ∧ ∀ u ∈ l, u.rssi ≤ s.rssi := by
  intro l
  induction l with
  | nil =>
    intro s h
    simp [pickStrongest] at h
  | cons t ts ih =>
    intro s h
    simp only [pickStrongest] at h
    cases hts : pickStrongest ts with
    | none =>
      simp only [hts] at h
      cases h
      have hnil : ts = [] := pickStrongest_eq_none.mp hts
      subst hnil
      refine ⟨List.mem_singleton_self _, ?_⟩
      intro u hu
      rw [List.mem_singleton] at hu
      subst hu
      exact le_rfl
    | some w =>
      simp only [hts] at h
      obtain ⟨hwmem, hwle⟩ := ih hts
      by_cases hlt : t.rssi < w.rssi
      · rw [if_pos hlt] at h
        cases h
        refine ⟨List.mem_cons_of_mem _ hwmem, ?_⟩
        intro u hu
        rcases List.mem_cons.mp hu with rfl | hu
        · exact hlt.le
        · exact hwle u hu
      · rw [if_neg hlt] at h
        cases h
        refine ⟨List.mem_cons_self _ _, ?_⟩
        intro u hu
        rcases List.mem_cons.mp hu with rfl | hu
        · exact le_rfl
        · exact le_trans (hwle u hu) (not_lt.mp hlt)

lemma maxQ_eq_none {l : List ℚ} : maxQ l = none ↔ l = [] := by
  cases l with
  | nil => simp [maxQ]
  | cons x xs =>
    simp only [maxQ]
    constructor
    · intro h
      exfalso
      cases hxs : maxQ xs with
      | none =>
        simp only [hxs] at h
        exact Option.noConfusion h
      | some m =>
        simp only [hxs] at h
        exact Option.noConfusion h
    · intro h
      exact List.noConfusion h

lemma collidersList_ne_nil (active : List Tx) (event_id node_id sf : ℕ)
    (rssi end_time current_time : ℚ) :
    collidersList active event_id node_id sf rssi end_time current_time ≠ [] := by
  unfold collidersList
  simp

lemma strongestOf_spec (active : List Tx) (event_id node_id sf : ℕ)
    (rssi end_time current_time : ℚ) :
    strongestOf active event_id node_id sf rssi end_time current_time
        ∈ collidersList active event_id node_id sf rssi end_time current_time ∧
    ∀ t ∈ collidersList active event_id node_id sf rssi end_time current_time,
      t.rssi ≤ (strongestOf active event_id node_id sf rssi end_time current_time).rssi := by
  cases h : pickStrongest (collidersList active event_id node_id sf rssi end_time
      current_time) with
  | none =>
    exact absurd (pickStrongest_eq_none.mp h)
      (collidersList_ne_nil active event_id node_id sf rssi end_time current_time)
  | some s =>
    have hspec := pickStrongest_spec h
    unfold strongestOf
    rw [h]
    simpa using hspec

lemma secondRssi_isSome (active : List Tx) (event_id node_id sf : ℕ)
    (rssi end_time current_time : ℚ)
    (hC : concurrentList active sf current_time ≠ []) :
    ∃ s2, secondRssi active event_id node_id sf rssi end_time current_time = some s2 := by
  have hlen : 2 ≤ (collidersList active event_id node_id sf rssi end_time
      current_time).length := by
    unfold collidersList
    rw [List.length_append]
    have hpos : 0 < (concurrentList active sf current_time).length :=
      List.length_pos.mpr hC
    simp only [List.length_singleton]
    omega
  have herase : (((collidersList active event_id node_id sf rssi end_time
      current_time).map Tx.rssi).erase
      (strongestOf active event_id node_id sf rssi end_time current_time).rssi) ≠ [] := by
    set l := (collidersList active event_id node_id sf rssi end_time
      current_time).map Tx.rssi with hl
    set a := (strongestOf active event_id node_id sf rssi end_time current_time).rssi
    have hlen2 : 2 ≤ l.length := by
      rw [hl, List.length_map]
      exact hlen
    apply List.ne_nil_of_length_pos
    by_cases hmem : a ∈ l
    · rw [List.length_erase_of_mem hmem]
      omega
    · rw [List.erase_of_not_mem hmem]
      omega
  unfold secondRssi
  cases h : maxQ (((collidersList active event_id node_id sf rssi end_time
      current_time).map Tx.rssi).erase
      (strongestOf active event_id node_id sf rssi end_time current_time).rssi) with
  | none => exact absurd (maxQ_eq_none.mp h) herase
  | some v => exact ⟨v, rfl⟩

lemma isEmpty_eq_false_of_ne_nil {l : List Tx} (h : l ≠ []) : l.isEmpty = false := by
  cases l with
  | nil => exact absurd rfl h
  | cons a as => rfl

lemma start_reception_eq_capture (active : List Tx) (event_id node_id sf : ℕ)
    (rssi end_time capture_threshold current_time s2 : ℚ)
    (hne : concurrentList active sf current_time ≠ [])
    (hs2 : secondRssi active event_id node_id sf rssi end_time current_time = some s2)
    (hcap : capture_threshold
      ≤ (strongestOf active event_id node_id sf rssi end_time current_time).rssi - s2) :
    Gateway.start_reception active event_id node_id sf rssi end_time capture_threshold
        current_time
      = if (strongestOf active event_id node_id sf rssi end_time
            current_time).event_id == event_id then
          keptList active event_id node_id sf rssi end_time current_time
            ++ [newFrame event_id node_id sf rssi end_time]
        else keptList active event_id node_id sf rssi end_time current_time := by
  have hempty := isEmpty_eq_false_of_ne_nil hne
  simp only [Gateway.start_reception, hempty, Bool.false_eq_true, if_false, hs2,
    decide_eq_true hcap, if_true, keptList, newFrame]

lemma start_reception_eq_nocapture (active : List Tx) (event_id node_id sf : ℕ)
    (rssi end_time capture_threshold current_time s2 : ℚ)
    (hne : concurrentList active sf current_time ≠ [])
    (hs2 : secondRssi active event_id node_id sf rssi end_time current_time = some s2)
    (hncap : (strongestOf active event_id node_id sf rssi end_time current_time).rssi - s2
      < capture_threshold) :
    Gateway.start_reception active event_id node_id sf rssi end_time capture_threshold
        current_time
      = active.filter (fun t => !(t.concurrent sf current_time)) := by
  have hempty := isEmpty_eq_false_of_ne_nil hne
  have hdec : decide (capture_threshold
      ≤ (strongestOf active event_id node_id sf rssi end_time current_time).rssi - s2)
      = false := decide_eq_false (not_le.mpr hncap)
  simp only [Gateway.start_reception, hempty, Bool.false_eq_true, if_false, hs2, hdec]

lemma mem_concurrentList {active : List Tx} {sf : ℕ} {current_time : ℚ} {t : Tx} :
    t ∈ concurrentList active sf current_time
      ↔ t ∈ active ∧ t.concurrent sf current_time = true := by
  unfold concurrentList
  exact List.mem_filter

lemma keptList_cases {active : List Tx} {event_id node_id sf : ℕ}
    {rssi end_time current_time : ℚ} {u : Tx}
    (hu : u ∈ keptList active event_id node_id sf rssi end_time current_time) :
    (∃ a, a ∈ active ∧ a.concurrent sf current_time = true ∧
      a.event_id = (strongestOf active event_id node_id sf rssi end_time
        current_time).event_id ∧
      u = { a with lost_flag := false }) ∨
    (u ∈ active ∧ u.concurrent sf current_time = false) := by
  unfold keptList at hu
  rw [List.mem_filterMap] at hu
  obtain ⟨a, ha, hfa⟩ := hu
  by_cases hc : a.concurrent sf current_time = true
  · rw [if_pos hc] at hfa
    by_cases hb : (a.event_id == (strongestOf active event_id node_id sf rssi end_time
        current_time).event_id) = true
    · rw [if_pos hb] at hfa
      exact Or.inl ⟨a, ha, hc, beq_iff_eq.mp hb, (Option.some.inj hfa).symm⟩
    · rw [if_neg hb] at hfa
      exact Option.noConfusion hfa
  · rw [if_neg hc] at hfa
    have hau : a = u := Option.some.inj hfa
    subst hau
    refine Or.inr ⟨ha, ?_⟩
    revert hc
    cases a.concurrent sf current_time <;> simp

lemma mem_keptList_of_nonconcurrent {active : List Tx} {event_id node_id sf : ℕ}
    {rssi end_time current_time : ℚ} {t : Tx}
    (ht : t ∈ active) (hc : t.concurrent sf current_time = false) :
    t ∈ keptList active event_id node_id sf rssi end_time current_time := by
  unfold keptList
  rw [List.mem_filterMap]
  refine ⟨t, ht, ?_⟩
  rw [if_neg]
  rw [hc]
  simp

lemma winner_mem_keptList {active : List Tx} {event_id node_id sf : ℕ}
    {rssi end_time current_time : ℚ}
    (hmem : strongestOf active event_id node_id sf rssi end_time current_time ∈ active)
    (hc : (strongestOf active event_id node_id sf rssi end_time current_time).concurrent
      sf current_time = true) :
    { strongestOf active event_id node_id sf rssi end_time current_time with
        lost_flag := false }
      ∈ keptList active event_id node_id sf rssi end_time current_time := by
  unfold keptList
  rw [List.mem_filterMap]
  refine ⟨strongestOf active event_id node_id sf rssi end_time current_time, hmem, ?_⟩
  rw [if_pos hc, if_pos (beq_self_eq_true _)]

/-- C3: `start_reception` behaves as specified in all three cases.
With `C` the active same-SF entries still running at `now` and
`s1, s2` the two highest RSSI values among `C` plus the new frame
(`s1` attained by `strongest`, which dominates every collider): if `C`
is empty the new frame is inserted with `lost_flag = false`; if
`s1 − s2 ≥ capture_threshold` the strongest frame alone survives (kept,
or inserted when it is the new frame, with `lost_flag = false`), every
other frame of `C` is removed while unrelated entries stay, and the
new frame enters only when it wins; if `s1 − s2 < capture_threshold`
every frame of `C` is removed and the new frame is not inserted.
The hypotheses are the gateway invariant (at most one entry per
`event_id`) and global freshness of the new `event_id`. -/
theorem start_reception_cases (active : List Tx) (event_id node_id sf : ℕ)
    (rssi end_time capture_threshold current_time : ℚ)
    (hnodup : (active.map Tx.event_id).Nodup)
    (hfresh : ∀ t ∈ active, t.event_id ≠ event_id) :
    StartReceptionPost active event_id node_id sf rssi end_time capture_threshold
      current_time := by
  have hinj : ∀ {u t : Tx}, u ∈ active → t ∈ active → u.event_id = t.event_id → u = t :=
    fun hu ht he => List.inj_on_of_nodup_map hnodup hu ht he
  simp only [StartReceptionPost]
  refine ⟨strongestOf_spec active event_id node_id sf rssi end_time current_time,
    fun h => secondRssi_isSome active event_id node_id sf rssi end_time current_time h,
    ?hemp, ?hcase⟩
  case hemp =>
    intro h
    simp [Gateway.start_reception, h]
  case hcase =>
    intro s2 hne hs2
    constructor
    · intro hcap
      have hres := start_reception_eq_capture active event_id node_id sf rssi end_time
        capture_threshold current_time s2 hne hs2 hcap
      have hmem : ∀ u, u ∈ Gateway.start_reception active event_id node_id sf rssi
          end_time capture_threshold current_time →
          u ∈ keptList active event_id node_id sf rssi end_time current_time ∨
          ((strongestOf active event_id node_id sf rssi end_time current_time).event_id
              = event_id ∧
            u = newFrame event_id node_id sf rssi end_time) := by
        intro u hu
        rw [hres] at hu
        by_cases hbq : ((strongestOf active event_id node_id sf rssi end_time
            current_time).event_id == event_id) = true
        · rw [if_pos hbq] at hu
          rcases List.mem_append.mp hu with h | h
          · exact Or.inl h
          · exact Or.inr ⟨beq_iff_eq.mp hbq, List.mem_singleton.mp h⟩
        · rw [if_neg hbq] at hu
          exact Or.inl hu
      have hkept_sub : ∀ u, u ∈ keptList active event_id node_id sf rssi end_time
          current_time →
          u ∈ Gateway.start_reception active event_id node_id sf rssi end_time
            capture_threshold current_time := by
        intro u hu
        rw [hres]
        by_cases hbq : ((strongestOf active event_id node_id sf rssi end_time
            current_time).event_id == event_id) = true
        · rw [if_pos hbq]
          exact List.mem_append_left _ hu
        · rw [if_neg hbq]
          exact hu
      refine ⟨?losers, ?winner, ?others, ?nonew, ?closure⟩
      case losers =>
        intro t htC htne u hu heq
        rcases hmem u hu with hk | ⟨hSid, rfl⟩
        · rcases keptList_cases hk with ⟨a, ha, hac, haid, rfl⟩ | ⟨hua, huc⟩
          · have heq2 : a.event_id = t.event_id := heq
            exact htne (heq2 ▸ haid)
          · obtain ⟨htA, htc⟩ := mem_concurrentList.mp htC
            have hut : u = t := hinj hua htA heq
            subst hut
            rw [htc] at huc
            exact Bool.noConfusion huc
        · obtain ⟨htA, htc⟩ := mem_concurrentList.mp htC
          have heq2 : event_id = t.event_id := heq
          exact hfresh t htA heq2.symm
      case winner =>
        rcases List.mem_append.mp
            (strongestOf_spec active event_id node_id sf rssi end_time current_time).1
          with hSC | hSnew
        · obtain ⟨hSA, hSc⟩ := mem_concurrentList.mp hSC
          exact hkept_sub _ (winner_mem_keptList hSA hSc)
        · rw [List.mem_singleton] at hSnew
          have hSid : (strongestOf active event_id node_id sf rssi end_time
              current_time).event_id = event_id := by
            rw [hSnew]
            rfl
          rw [hres, if_pos (beq_iff_eq.mpr hSid)]
          apply List.mem_append_right
          rw [List.mem_singleton, hSnew]
          rfl
      case others =>
        intro t ht htc
        exact hkept_sub _ (mem_keptList_of_nonconcurrent ht htc)
      case nonew =>
        intro hSne u hu heq
        rcases hmem u hu with hk | ⟨hSid, rfl⟩
        · rcases keptList_cases hk with ⟨a, ha, hac, haid, rfl⟩ | ⟨hua, _⟩
          · have heq2 : a.event_id = event_id := heq
            exact hSne (haid ▸ heq2)
          · exact hfresh u hua heq
        · exact hSne hSid
      case closure =>
        intro u hu
        rcases hmem u hu with hk | ⟨hSid, rfl⟩
        · rcases keptList_cases hk with ⟨a, ha, hac, haid, rfl⟩ | ⟨hua, _⟩
          · rcases List.mem_append.mp
                (strongestOf_spec active event_id node_id sf rssi end_time
                  current_time).1
              with hSC | hSnew
            · obtain ⟨hSA, _⟩ := mem_concurrentList.mp hSC
              have haS : a = strongestOf active event_id node_id sf rssi end_time
                  current_time := hinj ha hSA haid
              exact Or.inl (by rw [haS])
            · rw [List.mem_singleton] at hSnew
              have haid2 : a.event_id = event_id := by
                rw [haid, hSnew]
                rfl
              exact absurd haid2 (hfresh a ha)
          · exact Or.inr hua
        · rcases List.mem_append.mp
              (strongestOf_spec active event_id node_id sf rssi end_time current_time).1
            with hSC | hSnew
          · obtain ⟨hSA, _⟩ := mem_concurrentList.mp hSC
            exact absurd hSid (hfresh _ hSA)
          · rw [List.mem_singleton] at hSnew
            left
            rw [hSnew]
            rfl
    · intro hncap
      have hres := start_reception_eq_nocapture active event_id node_id sf rssi end_time
        capture_threshold current_time s2 hne hs2 hncap
      refine ⟨?l1, ?l2, ?l3, ?l4⟩
      case l1 =>
        intro t htC u hu heq
        rw [hres] at hu
        obtain ⟨hua, hub⟩ := List.mem_filter.mp hu
        obtain ⟨htA, htc⟩ := mem_concurrentList.mp htC
        have hut : u = t := hinj hua htA heq
        subst hut
        rw [htc] at hub
        exact Bool.noConfusion hub
      case l2 =>
        intro u hu
        rw [hres] at hu
        exact hfresh u (List.mem_filter.mp hu).1
      case l3 =>
        intro t ht htc
        rw [hres]
        refine List.mem_filter.mpr ⟨ht, ?_⟩
        rw [htc]
        rfl
      case l4 =>
        intro u hu
        rw [hres] at hu
        exact (List.mem_filter.mp hu).1

/-- Witness for C3: one active SF7 entry (id 0, RSSI 0 dBm, running
until t = 10) and a new SF7 frame (id 1, RSSI 10 dBm) at t = 0. -/
theorem start_reception_cases_witness :
    (([⟨0, 1, 7, 0, 10, false⟩] : List Tx).map Tx.event_id).Nodup ∧
    (∀ t ∈ ([⟨0, 1, 7, 0, 10, false⟩] : List Tx), t.event_id ≠ 1) ∧
    StartReceptionPost [⟨0, 1, 7, 0, 10, false⟩] 1 2 7 10 20 6 0 :=
  ⟨by decide, by decide,
    start_reception_cases [⟨0, 1, 7, 0, 10, false⟩] 1 2 7 10 20 6 0
      (by decide) (by decide)⟩

end LoraSim
